import Mathlib

/-!
Verification development for the WebSnapPro crawl-and-download engine
(`WebSnapPro.py`, class `WebsiteSaver` and its driver `DownloadThread`).

Strings are modelled as `List Char` (`Str`) so that every operation is
structurally recursive and can be evaluated by the kernel on concrete
inputs.  The Python library functions the engine calls
(`urllib.parse.urlsplit` / `urljoin` / `unquote`, `posixpath.join` /
`dirname` / `relpath`) are modelled from their CPython implementations,
restricted as noted in the individual doc comments.
-/

namespace WebSnapPro

abbrev Str := List Char

/-- ASCII lower-casing of one character (Python `str.lower` on ASCII). -/
def lowerChar (c : Char) : Char :=
  if 'A' ≤ c ∧ c ≤ 'Z' then Char.ofNat (c.toNat + 32) else c

/-- Python `str.lower` (ASCII range). -/
def lowerStr (s : Str) : Str := s.map lowerChar

/-- Split at the first character satisfying `p`: the part before it and,
when found, the part after it (the matching character is dropped, as in
Python `str.split(sep, 1)`). -/
def breakAt (p : Char → Bool) : Str → Str × Option Str
  | [] => ([], none)
  | c :: cs =>
    if p c then ([], some cs)
    else
      let r := breakAt p cs
      (c :: r.1, r.2)

/-- Take until the first character satisfying `p`, keeping the delimiter
in the remainder (`_splitnetloc` style slicing). -/
def takeUntil (p : Char → Bool) : Str → Str × Str
  | [] => ([], [])
  | c :: cs =>
    if p c then ([], c :: cs)
    else
      let r := takeUntil p cs
      (c :: r.1, r.2)

/-- Python `str.startswith`. -/
def startsWithStr : Str → Str → Bool
  | _, [] => true
  | [], _ :: _ => false
  | c :: cs, p :: ps => decide (c = p) && startsWithStr cs ps

/-- Python `str.endswith`. -/
def endsWithStr (s suffix : Str) : Bool :=
  startsWithStr s.reverse suffix.reverse

/-- Python `in` on strings (substring test). -/
def containsStr (hay needle : Str) : Bool :=
  match hay with
  | [] => startsWithStr [] needle
  | _ :: t => startsWithStr hay needle || containsStr t needle

def isAsciiAlpha (c : Char) : Bool :=
  (decide ('a' ≤ c) && decide (c ≤ 'z')) || (decide ('A' ≤ c) && decide (c ≤ 'Z'))

def isAsciiDigit (c : Char) : Bool :=
  decide ('0' ≤ c) && decide (c ≤ '9')

/-- `urllib.parse.scheme_chars`. -/
def isSchemeChar (c : Char) : Bool :=
  isAsciiAlpha c || isAsciiDigit c || decide (c = '+') || decide (c = '-') || decide (c = '.')

/-- Result of `urllib.parse.urlsplit` (the `params` component of
`urlparse`, split out of the last path segment at a `;`, is not
modelled: no URL handled in this development contains `;`). -/
structure UrlParts where
  scheme : Str
  netloc : Str
  path : Str
  query : Str
  fragment : Str
deriving DecidableEq

/-- Model of CPython `urllib.parse.urlsplit(url, scheme=defaultScheme)`:
scheme split at the first `:` when the candidate is a valid scheme name,
authority after `//` up to the first of `/?#`, fragment after the first
`#`, query after the first `?`. -/
def urlsplitWith (defaultScheme : Str) (url : Str) : UrlParts :=
  let br := breakAt (fun c => decide (c = ':')) url
  let sr : Str × Str :=
    match br.2 with
    | some after =>
      match br.1 with
      | [] => (defaultScheme, url)
      | c :: _ =>
        if isAsciiAlpha c ∧ br.1.all isSchemeChar then (lowerStr br.1, after)
        else (defaultScheme, url)
    | none => (defaultScheme, url)
  let scheme := sr.1
  let rest := sr.2
  let nr : Str × Str :=
    if startsWithStr rest "//".data then
      takeUntil (fun c => decide (c = '/') || decide (c = '?') || decide (c = '#')) (rest.drop 2)
    else ([], rest)
  let netloc := nr.1
  let fr : Str × Str :=
    match breakAt (fun c => decide (c = '#')) nr.2 with
    | (before, some after) => (before, after)
    | (before, none) => (before, [])
  let qr : Str × Str :=
    match breakAt (fun c => decide (c = '?')) fr.1 with
    | (before, some after) => (before, after)
    | (before, none) => (before, [])
  ⟨scheme, netloc, qr.1, qr.2, fr.2⟩

/-- `urllib.parse.urlparse` as used by the engine (no default scheme). -/
def urlparse (url : Str) : UrlParts := urlsplitWith [] url

/-- Value of one hex digit. -/
def hexDigit (c : Char) : Option Nat :=
  if '0' ≤ c ∧ c ≤ '9' then some (c.toNat - '0'.toNat)
  else if 'a' ≤ c ∧ c ≤ 'f' then some (c.toNat - 'a'.toNat + 10)
  else if 'A' ≤ c ∧ c ≤ 'F' then some (c.toNat - 'A'.toNat + 10)
  else none

/-- Model of `urllib.parse.unquote`: every `%XX` hex escape becomes the
character with that code.  (CPython additionally UTF-8-decodes runs of
escaped bytes; the model is byte-per-character, exact on ASCII.) -/
def unquote : Str → Str
  | [] => []
  | ['%'] => ['%']
  | ['%', a] => ['%', a]
  | '%' :: a :: b :: rest2 =>
    match hexDigit a, hexDigit b with
    | some x, some y => Char.ofNat (16 * x + y) :: unquote rest2
    | _, _ => '%' :: unquote (a :: b :: rest2)
  | c :: rest => c :: unquote rest

/-- `posixpath.join` on two components (the program's `os.path.join`;
POSIX separators are used throughout the model). -/
def ospJoin (a b : Str) : Str :=
  if startsWithStr b "/".data then b
  else if a = [] ∨ a.getLast? = some '/' then a ++ b
  else a ++ '/' :: b

/-- `posixpath.dirname`. -/
def ospDirname (p : Str) : Str :=
  let tailLen := (p.reverse.takeWhile (fun c => !(decide (c = '/')))).length
  if tailLen = p.length then []
  else
    let head := p.take (p.length - tailLen)
    if head ≠ [] ∧ ¬ head.all (fun c => decide (c = '/')) then
      (head.reverse.dropWhile (fun c => decide (c = '/'))).reverse
    else head

/-- Python `str.split(sep)` for a one-character separator (keeps empty
pieces; result is always non-empty). -/
def splitChar (sep : Char) : Str → List Str
  | [] => [[]]
  | c :: cs =>
    match splitChar sep cs with
    | [] => [[]]
    | h :: t => if c = sep then [] :: h :: t else (c :: h) :: t

/-- Component list of an absolute POSIX path after `abspath`/`normpath`:
empty and `.` components dropped, `..` pops (and is dropped at the
root), as `posixpath.relpath` produces via `abspath(...).split('/')`. -/
def absComps (p : Str) : List Str :=
  (splitChar '/' p).foldl
    (fun acc comp =>
      if comp = [] ∨ comp = ".".data then acc
      else if comp = "..".data then acc.dropLast
      else acc ++ [comp])
    []

/-- Length of the common component prefix of two paths. -/
def commonLen : List Str → List Str → Nat
  | a :: as, b :: bs => if a = b then commonLen as bs + 1 else 0
  | _, _ => 0

/-- Join path components with `/`. -/
def joinWithSlash : List Str → Str
  | [] => []
  | [x] => x
  | x :: y :: xs => x ++ '/' :: joinWithSlash (y :: xs)

/-- `posixpath.relpath path start` for absolute arguments (the engine
only ever passes absolute paths rooted at the save directory). -/
def ospRelpath (path start : Str) : Str :=
  let pl := absComps path
  let sl := absComps start
  let i := commonLen sl pl
  let rel := (List.replicate (sl.length - i) "..".data) ++ pl.drop i
  if rel = [] then ".".data else joinWithSlash rel

/-- `urllib.parse.uses_relative` (scheme list). -/
def usesRelative : List Str :=
  ["".data, "ftp".data, "http".data, "gopher".data, "nntp".data, "imap".data,
   "wais".data, "file".data, "https".data, "shttp".data, "mms".data,
   "prospero".data, "rtsp".data, "rtspu".data, "sftp".data, "svn".data,
   "svn+ssh".data, "ws".data, "wss".data]

/-- `urllib.parse.uses_netloc` (scheme list). -/
def usesNetloc : List Str :=
  ["".data, "ftp".data, "http".data, "gopher".data, "nntp".data, "telnet".data,
   "imap".data, "wais".data, "file".data, "mms".data, "https".data,
   "shttp".data, "snews".data, "prospero".data, "rtsp".data, "rtspu".data,
   "rsync".data, "svn".data, "svn+ssh".data, "sftp".data, "nfs".data,
   "git".data, "git+ssh".data, "ws".data, "wss".data]

/-- `urllib.parse.urlunsplit`. -/
def urlunsplit (p : UrlParts) : Str :=
  let url := p.path
  let url :=
    if p.netloc ≠ [] ∨ (url ≠ [] ∧ url.take 2 = "//".data) then
      let u2 := if url ≠ [] ∧ url.take 1 ≠ "/".data then '/' :: url else url
      "//".data ++ p.netloc ++ u2
    else url
  let url := if p.scheme ≠ [] then p.scheme ++ ':' :: url else url
  let url := if p.query ≠ [] then url ++ '?' :: p.query else url
  if p.fragment ≠ [] then url ++ '#' :: p.fragment else url

/-- Dot-segment resolution loop of `urljoin`: `..` pops (ignored when
there is nothing to pop), `.` is dropped, everything else is kept. -/
def resolveSegs : List Str → List Str :=
  List.foldl
    (fun acc seg =>
      if seg = "..".data then acc.dropLast
      else if seg = ".".data then acc
      else acc ++ [seg])
    []

/-- Keep the first and last element, drop empty strings in between
(`segments[1:-1] = filter(None, segments[1:-1])`). -/
def filterMid : List Str → List Str
  | [] => []
  | [x] => [x]
  | x :: y :: xs =>
    let middle := (y :: xs).dropLast
    let last := (y :: xs).getLastD []
    x :: (middle.filter (fun s => s ≠ [])) ++ [last]

/-- Model of CPython `urllib.parse.urljoin base url` (the engine's
`get_absolute_url`); `params` handling is omitted as in `urlparse`. -/
def urljoin (base url : Str) : Str :=
  if base = [] then url
  else if url = [] then base
  else
    let bp := urlsplitWith [] base
    let up := urlsplitWith bp.scheme url
    if up.scheme ≠ bp.scheme ∨ ¬ up.scheme ∈ usesRelative then url
    else if up.scheme ∈ usesNetloc ∧ up.netloc ≠ [] then
      urlunsplit up
    else
      let netloc := if up.scheme ∈ usesNetloc then bp.netloc else up.netloc
      if up.path = [] then
        let query := if up.query = [] then bp.query else up.query
        urlunsplit ⟨up.scheme, netloc, bp.path, query, up.fragment⟩
      else
        let baseParts := splitChar '/' bp.path
        let baseParts :=
          if baseParts.getLastD [] ≠ [] then baseParts.dropLast else baseParts
        let segments :=
          if up.path.take 1 = "/".data then splitChar '/' up.path
          else filterMid (baseParts ++ splitChar '/' up.path)
        let resolved := resolveSegs segments
        let resolved :=
          if segments.getLastD [] = ".".data ∨ segments.getLastD [] = "..".data then
            resolved ++ [[]]
          else resolved
        let joined := joinWithSlash resolved
        let path := if joined = [] then "/".data else joined
        urlunsplit ⟨up.scheme, netloc, path, up.query, up.fragment⟩

/-- The mutable state of `WebsiteSaver` (lines 104–134) that the engine
claims are about.  Sets are lists queried by membership; the queues are
FIFO lists; `delay_ms`/`last_request_time` model the rate limiter clock
in integer milliseconds. -/
structure Saver where
  visited_urls : List Str
  downloaded_resources : List Str
  initial_domain : Str
  save_dir : Str
  resource_queue : List Str
  page_queue : List (Str × Str × Nat)
  is_cancelled : Bool
  total_files : Nat
  downloaded_files : Nat
  delay_ms : Int
  last_request_time : Int
  max_depth : Nat
deriving DecidableEq

/-- The state produced by `reset_state` (lines 125–134) together with
`__init__` defaults for the fields `reset_state` does not touch. -/
def resetSaver : Saver :=
  { visited_urls := []
    downloaded_resources := []
    initial_domain := []
    save_dir := []
    resource_queue := []
    page_queue := []
    is_cancelled := false
    total_files := 0
    downloaded_files := 0
    delay_ms := 0
    last_request_time := 0
    max_depth := 1 }

/-- `WebsiteSaver.is_valid_url` (lines 158–166).  The
`current_domain` argument is accepted and ignored, exactly as in the
source: the comparison is against `self.initial_domain`. -/
def is_valid_url (s : Saver) (url : Str) (_currentDomain : Str) : Bool :=
  if url = [] ∨ startsWithStr url "javascript:".data ∨ startsWithStr url "mailto:".data then
    false
  else
    let parsed := urlparse url
    decide (parsed.netloc ≠ []) && decide (parsed.netloc = s.initial_domain)

/-- `WebsiteSaver.get_absolute_url` (lines 168–172). -/
def get_absolute_url (baseUrl relativeUrl : Str) : Str :=
  urljoin baseUrl relativeUrl

/-- `WebsiteSaver.get_local_path` (lines 174–198): maps a URL to the
local file path under `save_dir`.  The `os.makedirs` side effect is
omitted (pure model of the returned path). -/
def get_local_path (url : Str) (save_dir : Str) : Str :=
  let parsed := urlparse url
  let path := unquote parsed.path
  let path :=
    if path = [] ∨ path = "/".data then "/index.html".data
    else if endsWithStr path "/".data then path ++ "index.html".data
    else path
  let path := if startsWithStr path "/".data then path.drop 1 else path
  ospJoin save_dir path

/-- `WebsiteSaver.apply_delay` (lines 139–156), under `delay_lock`.
`now` is the clock value (`time.time() * 1000`) at entry of the critical
section; the returned `Int` is the instant at which the call returns
(after the enforced sleep, idealized as exact).  The final
`time.time() * 1000` re-read after the sleep is idealized as that same
instant. -/
def apply_delay (s : Saver) (now : Int) : Saver × Int :=
  if s.delay_ms ≤ 0 then (s, now)
  else if s.last_request_time = 0 then
    ({ s with last_request_time := now }, now)
  else if now - s.last_request_time < s.delay_ms then
    ({ s with last_request_time := now + (s.delay_ms - (now - s.last_request_time)) },
     now + (s.delay_ms - (now - s.last_request_time)))
  else
    ({ s with last_request_time := now }, now)

/-- An element of the parsed document: tag name and attribute list
(BeautifulSoup node, restricted to what `extract_resources` reads and
writes).  A document is the list of its elements in document order. -/
structure Element where
  tag : Str
  attrs : List (Str × Str)
deriving DecidableEq

/-- BeautifulSoup `element.has_attr(a)` / `element[a]` read. -/
def getAttr (e : Element) (a : Str) : Option Str :=
  (e.attrs.find? (fun p => decide (p.1 = a))).map (fun p => p.2)

/-- BeautifulSoup `element[a] = v` write (the attribute is present in
every use below, guarded by `has_attr`). -/
def setAttr (e : Element) (a : Str) (v : Str) : Element :=
  { e with attrs := e.attrs.map (fun p => if p.1 = a then (a, v) else p) }

/-- Map with state threaded left-to-right (one worker mutating the
document while updating the shared state). -/
def mapAccumL (f : σ → α → σ × α) : σ → List α → σ × List α
  | s, [] => (s, [])
  | s, x :: xs =>
    let r := f s x
    let r2 := mapAccumL f r.1 xs
    (r2.1, r.2 :: r2.2)

/-- The `with self.lock:` critical section claiming a resource URL
(lines 283–289 of the CSS pass; lines 300–305 of the tag pass have the
identical effect on the shared state): re-test membership, and only if
still unclaimed add to `downloaded_resources`, enqueue on
`resource_queue` and bump `total_files`.  The second component lists
the URLs enqueued by this invocation (one or none). -/
def lockResourceClaim (s : Saver) (u : Str) : Saver × List Str :=
  if u ∈ s.downloaded_resources then (s, [])
  else
    ({ s with downloaded_resources := u :: s.downloaded_resources
              resource_queue := s.resource_queue ++ [u]
              total_files := s.total_files + 1 }, [u])

/-- The `with self.lock:` critical section claiming a hyperlink target
as a page (lines 329–338): re-test both dedup sets, and only if still
unclaimed add to both sets, enqueue a `PageTask` at `depth + 1` on
`page_queue` and bump `total_files`.  The second component lists the
URLs enqueued by this invocation. -/
def lockLinkClaim (s : Saver) (u : Str) (depth : Nat) : Saver × List Str :=
  if u ∉ s.visited_urls ∧ u ∉ s.downloaded_resources then
    let pageDomain := (urlparse u).netloc
    ({ s with visited_urls := u :: s.visited_urls
              downloaded_resources := u :: s.downloaded_resources
              page_queue := s.page_queue ++ [(u, pageDomain, depth + 1)]
              total_files := s.total_files + 1 }, [u])
  else (s, [])

/-- One match of the CSS regex `url\([quote]?(.*?)[quote]?\)` after the
opening `url(`: the capture runs to the first `)`, with one leading and
one trailing quote absorbed by the optional quote groups; returns the
capture and the remaining input after the `)`, or `none` when no `)`
follows. -/
def grabParen (l : Str) : Option (Str × Str) :=
  let r := breakAt (fun c => decide (c = ')')) l
  match r.2 with
  | none => none
  | some rest =>
    let cap := r.1
    let cap :=
      match cap with
      | '\'' :: cs => cs
      | '"' :: cs => cs
      | cs => cs
    let cap :=
      if cap.getLast? = some '\'' ∨ cap.getLast? = some '"' then cap.dropLast
      else cap
    some (cap, rest)

/-- `re.findall(r'url\([quote]?(.*?)[quote]?\)', html)` (line 276),
fuel-indexed scan; fuel `htmlContent.length` suffices. -/
def cssUrlsAux : Nat → Str → List Str
  | 0, _ => []
  | _ + 1, [] => []
  | fuel + 1, l@(_ :: rest) =>
    if startsWithStr l "url(".data then
      match grabParen (l.drop 4) with
      | some (cap, rest2) => cap :: cssUrlsAux fuel rest2
      | none => cssUrlsAux fuel rest
    else cssUrlsAux fuel rest

def cssUrls (htmlContent : Str) : List Str :=
  cssUrlsAux htmlContent.length htmlContent

/-- Python `url.strip('\x27"')`: remove leading and trailing quotes. -/
def stripQuotes (s : Str) : Str :=
  let isQ : Char → Bool := fun c => decide (c = '\'') || decide (c = '"')
  ((s.dropWhile isQ).reverse.dropWhile isQ).reverse

/-- Body of the CSS-pass loop (lines 278–289): strip quotes, resolve,
scope-filter, double-checked claim.  The CSS pass never rewrites the
document text. -/
def cssStep (pageUrl currentDomain : Str) (s : Saver) (rawUrl : Str) : Saver :=
  let url := stripQuotes rawUrl
  let absoluteUrl := get_absolute_url pageUrl url
  if is_valid_url s absoluteUrl currentDomain = true ∧ absoluteUrl ∉ s.downloaded_resources then
    (lockResourceClaim s absoluteUrl).1
  else s

/-- The `resource_tags` table (lines 263–273), in insertion order. -/
def resourceTags : List (Str × Str) :=
  [("link".data, "href".data), ("script".data, "src".data),
   ("img".data, "src".data), ("source".data, "src".data),
   ("audio".data, "src".data), ("video".data, "src".data),
   ("iframe".data, "src".data), ("embed".data, "src".data),
   ("object".data, "data".data)]

/-- The locked tail of the tag-pass loop body (lines 299–310): on top of
the `lockResourceClaim` state effect, a freshly claimed reference is
rewritten to the local path of its URL relative to the directory of the
source page's local path. -/
def lockTagClaim (pageUrl : Str) (attr : Str) (s : Saver) (e : Element)
    (absoluteUrl : Str) : (Saver × Element) × List Str :=
  let r := lockResourceClaim s absoluteUrl
  if r.2 = [] then ((s, e), [])
  else
    let localPath := get_local_path absoluteUrl s.save_dir
    let pageDir := ospDirname (get_local_path pageUrl s.save_dir)
    let relativePath := ospRelpath localPath pageDir
    ((r.1, setAttr e attr relativePath), r.2)

/-- Body of the tag-pass loop (lines 292–310) for one element and one
`(tag, attr)` pair: elements of other tags or without the attribute are
untouched; otherwise resolve, scope-filter, unlocked membership test,
then the locked claim-and-rewrite. -/
def tagStep (pageUrl currentDomain : Str) (ta : Str × Str) (s : Saver)
    (e : Element) : Saver × Element :=
  if e.tag = ta.1 ∧ (getAttr e ta.2).isSome then
    let url := (getAttr e ta.2).getD []
    let absoluteUrl := get_absolute_url pageUrl url
    if is_valid_url s absoluteUrl currentDomain = true ∧ absoluteUrl ∉ s.downloaded_resources then
      (lockTagClaim pageUrl ta.2 s e absoluteUrl).1
    else (s, e)
  else (s, e)

/-- File extensions treated as resources by the anchor pass (line 321). -/
def resourceExts : List Str :=
  [".css".data, ".js".data, ".jpg".data, ".jpeg".data, ".png".data,
   ".gif".data, ".bmp".data, ".ico".data, ".svg".data, ".woff".data,
   ".ttf".data, ".eot".data]

/-- Body of the anchor-pass loop (lines 314–343) for one element:
`a[href]` only; resolve, classify by path extension, scope-filter and
dedup-test, then the locked claim (enqueue `PageTask` at `depth + 1`)
and rewrite of the `href`. -/
def linkStep (pageUrl currentDomain : Str) (depth : Nat) (s : Saver)
    (e : Element) : Saver × Element :=
  if e.tag = "a".data ∧ (getAttr e "href".data).isSome then
    let href := (getAttr e "href".data).getD []
    let absoluteUrl := get_absolute_url pageUrl href
    let path := lowerStr (urlparse absoluteUrl).path
    let isResource := resourceExts.any (fun ext => endsWithStr path ext)
    if is_valid_url s absoluteUrl currentDomain = true ∧
        absoluteUrl ∉ s.visited_urls ∧
        absoluteUrl ∉ s.downloaded_resources ∧
        isResource = false then
      let r := lockLinkClaim s absoluteUrl depth
      if r.2 = [] then (s, e)
      else
        let localPath := get_local_path absoluteUrl s.save_dir
        let pageDir := ospDirname (get_local_path pageUrl s.save_dir)
        let relativePath := ospRelpath localPath pageDir
        (r.1, setAttr e "href".data relativePath)
    else (s, e)
  else (s, e)

/-- `WebsiteSaver.extract_resources` (lines 257–345): CSS pass over the
raw text, tag pass over the document (one sweep per `resource_tags`
entry), then the depth/mode-guarded anchor pass.  Returns the updated
shared state and the rewritten document (the content serialized by
`str(soup)` at line 345).  Progress-signal emissions are not modelled. -/
def extract_resources (s : Saver) (soup : List Element) (htmlContent : Str)
    (pageUrl currentDomain : Str) (downloadMode : Str) (depth : Nat) :
    Saver × List Element :=
  let s := (cssUrls htmlContent).foldl (cssStep pageUrl currentDomain) s
  let r := resourceTags.foldl
    (fun (acc : Saver × List Element) ta =>
      mapAccumL (tagStep pageUrl currentDomain ta) acc.1 acc.2)
    (s, soup)
  if downloadMode ≠ "current_page".data ∧
      (downloadMode = "all_pages".data ∨ depth < r.1.max_depth) then
    mapAccumL (linkStep pageUrl currentDomain depth) r.1 r.2
  else r

/-! ### Whole-run interpreter

`save_website` (lines 385–458) with its two worker loops
(`page_downloader`, lines 366–383, a single thread; `resource_downloader`,
lines 347–364) and the completion signal of `DownloadThread.run`
(lines 79–98).  Network responses come from an oracle
`fetch : Str → Option Fetched`; `none` models a request that raises
(invalid/unreachable URL, timeout, non-2xx), which `download_page`
catches at line 548 and `download_file` at line 252.  The interpreter
runs the single page worker to quiescence and then drains the resource
queue; resource workers never touch the dedup sets or queues other than
popping `resource_queue`, so the set of saved files and the completion
signal do not depend on the interleaving.  File writes are assumed to
succeed (filesystem errors are likewise caught and only logged). -/

/-- A successful HTTP response as the engine consumes it: the declared
content type, the decoded text, and the BeautifulSoup parse of that
text (parsing itself is not modelled; the oracle supplies it). -/
structure Fetched where
  contentType : Str
  body : Str
  soup : List Element
deriving DecidableEq

/-- `WebsiteSaver.download_page` (lines 460–550): returns the updated
state and the local paths of the files written (at most one). -/
def download_page (fetch : Str → Option Fetched) (s : Saver)
    (url currentDomain : Str) (downloadMode : Str) (depth : Nat) :
    Saver × List Str :=
  if s.is_cancelled then (s, [])
  else
    match fetch url with
    | none => (s, [])
    | some r =>
      let contentType := lowerStr r.contentType
      if containsStr contentType "text/html".data = true then
        if downloadMode = "current_page".data then
          let filepath := get_local_path url s.save_dir
          ({ s with downloaded_files := s.downloaded_files + 1 }, [filepath])
        else
          let er := extract_resources s r.soup r.body url currentDomain downloadMode depth
          let filepath := get_local_path url er.1.save_dir
          ({ er.1 with downloaded_files := er.1.downloaded_files + 1 }, [filepath])
      else
        let filepath := get_local_path url s.save_dir
        ({ s with downloaded_files := s.downloaded_files + 1 }, [filepath])

/-- `WebsiteSaver.download_file` (lines 200–255) as invoked by a
resource worker: cancellation check, fetch, write. -/
def download_file (fetch : Str → Option Fetched) (s : Saver)
    (url filepath : Str) : Saver × List Str :=
  if s.is_cancelled then (s, [])
  else
    match fetch url with
    | none => (s, [])
    | some _ => ({ s with downloaded_files := s.downloaded_files + 1 }, [filepath])

/-- The page worker loop (`page_downloader`, lines 366–383), fuel-
indexed: pop a `PageTask`, process it, repeat; exit on cancellation or
an empty queue. -/
def pageLoop (fetch : Str → Option Fetched) (downloadMode : Str) :
    Nat → Saver → List Str → Saver × List Str
  | 0, s, acc => (s, acc)
  | fuel + 1, s, acc =>
    if s.is_cancelled then (s, acc)
    else
      match s.page_queue with
      | [] => (s, acc)
      | (url, dom, depth) :: rest =>
        let r := download_page fetch { s with page_queue := rest } url dom downloadMode depth
        pageLoop fetch downloadMode fuel r.1 (acc ++ r.2)

/-- The resource worker loop (`resource_downloader`, lines 347–364),
fuel-indexed. -/
def resourceLoop (fetch : Str → Option Fetched) :
    Nat → Saver → List Str → Saver × List Str
  | 0, s, acc => (s, acc)
  | fuel + 1, s, acc =>
    if s.is_cancelled then (s, acc)
    else
      match s.resource_queue with
      | [] => (s, acc)
      | url :: rest =>
        let filepath := get_local_path url s.save_dir
        let r := download_file fetch { s with resource_queue := rest } url filepath
        resourceLoop fetch fuel r.1 (acc ++ r.2)

/-- Result of one run: final engine state, local paths of the files
written (in order), and the completion signal `(success, message)`
emitted by `DownloadThread.run` (lines 93–96). -/
structure RunResult where
  saver : Saver
  saved : List Str
  finished : Bool × Str
deriving DecidableEq

/-- `WebsiteSaver.save_website` (lines 385–458) driven by
`DownloadThread.run`: reset, derive the initial domain and save root
`<cwd>/saved_websites/<domain>`, seed the page queue with the start URL
at depth 0 (claimed in both dedup sets, `total_files = 1`), run the
workers, then emit the completion signal. -/
def save_website (fetch : Str → Option Fetched) (cwd url : Str)
    (downloadMode : Str) (maxDepth : Nat) (delayMs : Int) (fuel : Nat) :
    RunResult :=
  let dom := (urlparse url).netloc
  let saveDir := ospJoin (ospJoin cwd "saved_websites".data) dom
  let s : Saver := { resetSaver with
    initial_domain := dom
    save_dir := saveDir
    max_depth := maxDepth
    delay_ms := delayMs
    total_files := 1
    page_queue := [(url, dom, 0)]
    visited_urls := [url]
    downloaded_resources := [url] }
  let pr := pageLoop fetch downloadMode fuel s []
  let rr := resourceLoop fetch fuel pr.1 pr.2
  let fin : Bool × Str :=
    if rr.1.is_cancelled = false then (true, "下载完成!".data)
    else (false, "下载已取消".data)
  ⟨rr.1, rr.2, fin⟩

/-! ### Cancellation transition system

A small operational model for claim C3 of the interaction between the
cancellation flag (`cancel_download`, line 136), one worker loop
(`page_downloader`, lines 369–383: `while not self.is_cancelled` around
a blocking `get` / process / `task_done` cycle) and the completion
barrier `page_queue.join()` (line 450), which unblocks only when the
queue's count of unfinished tasks reaches zero (`queue.Queue` counts
one unfinished task per `put` and decrements on `task_done`).  The
resource queue is empty throughout the modelled scenario, so the
empty-queue branch of the worker (lines 356–359 / 375–378) exits. -/

/-- Program counter of the worker thread: at the `while` test, inside
`get` after passing the test, holding a popped task, or exited. -/
inductive WorkerPC where
  | atLoopTest
  | inGet
  | holding
  | exited
deriving DecidableEq

/-- State: cancellation flag, tasks sitting in the queue, the queue's
unfinished-task count (what `join` watches), and the worker's pc. -/
structure CancelSys where
  cancelled : Bool
  queued : Nat
  unfinished : Nat
  worker : WorkerPC
deriving DecidableEq

/-- All successor states.  `cancel_download` can fire once; the worker
steps through test → get → process+`task_done` → test, exiting at the
test when cancelled or from `get` when the queues are empty.  While
cancelled, processing a popped page task starts no fetch
(`download_page` returns at once, line 466) and enqueues nothing. -/
def cancelNext (s : CancelSys) : List CancelSys :=
  (if s.cancelled = false then [{ s with cancelled := true }] else []) ++
  (match s.worker with
   | .atLoopTest =>
     if s.cancelled then [{ s with worker := .exited }]
     else [{ s with worker := .inGet }]
   | .inGet =>
     match s.queued with
     | 0 => [{ s with worker := .exited }]
     | q + 1 => [{ s with queued := q, worker := .holding }]
   | .holding => [{ s with unfinished := s.unfinished - 1, worker := .atLoopTest }]
   | .exited => [])

/-! ### Interleaving model of the claim critical sections

For claim C1.  Every enqueue onto `resource_queue` or `page_queue`
during a run happens inside one of the `with self.lock:` critical
sections modelled by `lockResourceClaim` (CSS pass and tag pass) and
`lockLinkClaim` (anchor pass); `self.lock` is a single mutex, so a
concurrent execution of any number of workers discovering URLs is an
arbitrary serialization of these atomic sections.  A `ClaimOp` is one
such section with its arguments; `runClaims` executes a serialization
and collects every URL enqueued (the events). -/

inductive ClaimOp where
  | resource (url : Str)
  | link (url : Str) (depth : Nat)
deriving DecidableEq

def applyClaimOp (s : Saver) : ClaimOp → Saver × List Str
  | .resource u => lockResourceClaim s u
  | .link u d => lockLinkClaim s u d

def runClaims : Saver → List ClaimOp → Saver × List Str
  | s, [] => (s, [])
  | s, op :: ops =>
    let r := applyClaimOp s op
    let r2 := runClaims r.1 ops
    (r2.1, r.2 ++ r2.2)

/-! ### Serialized rate-limiter history

For claim C8.  `delay_lock` serializes the critical sections of
`apply_delay`, so the requests issued by any mix of worker threads form
a sequence; `delayRun` replays it.  Each list entry is the clock value
at entry of one critical section; the output collects the instants at
which the sections release their callers (the instants the outbound
requests start). -/
def delayRun : Saver → List Int → List Int
  | _, [] => []
  | s, t :: ts =>
    let r := apply_delay s t
    r.2 :: delayRun r.1 ts

/-- Consecutive elements are at least `d` apart. -/
def ConsecSpaced (d : Int) : List Int → Prop
  | [] => True
  | [_] => True
  | a :: b :: l => a + d ≤ b ∧ ConsecSpaced d (b :: l)

/-! ## Theorems -/

/-- C10: the Scope Filter's result is independent of its
`current_domain` argument — `is_valid_url` reads only the URL and the
stored `initial_domain`, although callers pass the current page's own
domain. -/
theorem c10_scope_filter_ignores_current_domain (s : Saver) (u d1 d2 : Str) :
    is_valid_url s u d1 = is_valid_url s u d2 := rfl

/-- C5: the Path Mapper's output is a function of the URL's path
component alone (besides the save root): any two URLs with the same
parsed path — in particular URLs differing only in query string or
fragment, which `urlsplit` strips from the path — map to the same local
file path. -/
theorem c5_local_path_depends_only_on_path (u1 u2 sd : Str)
    (h : (urlparse u1).path = (urlparse u2).path) :
    get_local_path u1 sd = get_local_path u2 sd := by
  unfold get_local_path
  dsimp only
  rw [h]

/-- Witness for C5 at two URLs differing only in query/fragment. -/
theorem c5_local_path_witness :
    (urlparse "http://example.com/a/b?x=1".data).path =
      (urlparse "http://example.com/a/b#frag".data).path ∧
    get_local_path "http://example.com/a/b?x=1".data "/save".data =
      get_local_path "http://example.com/a/b#frag".data "/save".data :=
  ⟨by decide, c5_local_path_depends_only_on_path _ _ _ (by decide)⟩

/-- C6 counterexample: the claimed "accepts if and only if the
authority is non-empty and equals the initial domain" fails on
`mailto://example.com` with initial domain `example.com`: its authority
is non-empty and equals the domain, yet the filter rejects it (the
`mailto:` prefix test fires first). -/
theorem c6_scope_filter_counterexample :
    is_valid_url { resetSaver with initial_domain := "example.com".data }
      "mailto://example.com".data "example.com".data = false ∧
    (urlparse "mailto://example.com".data).netloc ≠ [] ∧
    (urlparse "mailto://example.com".data).netloc = "example.com".data := by
  decide

/-- C6 (amended): the filter rejects empty URLs and `javascript:` /
`mailto:` prefixes outright; among the remaining URLs it accepts
exactly those whose authority is non-empty and equals the run's stored
initial domain (so authority-less relative URLs, subdomains and
cross-domain URLs are rejected). -/
theorem c6_scope_filter_amended (s : Saver) (u d : Str) :
    (u = [] → is_valid_url s u d = false) ∧
    (startsWithStr u "javascript:".data = true → is_valid_url s u d = false) ∧
    (startsWithStr u "mailto:".data = true → is_valid_url s u d = false) ∧
    ((urlparse u).netloc = [] → is_valid_url s u d = false) ∧
    ((urlparse u).netloc ≠ s.initial_domain → is_valid_url s u d = false) ∧
    (u ≠ [] → startsWithStr u "javascript:".data = false →
      startsWithStr u "mailto:".data = false → (urlparse u).netloc ≠ [] →
      (urlparse u).netloc = s.initial_domain → is_valid_url s u d = true) := by
  unfold is_valid_url
  refine ⟨fun h => ?_, fun h => ?_, fun h => ?_, fun h => ?_, fun h => ?_,
    fun h1 h2 h3 h4 h5 => ?_⟩
  · simp [h]
  · simp [h]
  · simp [h]
  · split
    · rfl
    · simp [h]
  · split
    · rfl
    · simp [h]
  · rw [if_neg (by simp [h1, h2, h3])]
    dsimp only
    rw [decide_eq_true h4, decide_eq_true h5]
    rfl

/-- Witness for C6 (amended): a rejected `mailto:` URL and an accepted
same-domain URL. -/
theorem c6_scope_filter_amended_witness :
    is_valid_url { resetSaver with initial_domain := "example.com".data }
      "mailto:bob@example.com".data "example.com".data = false ∧
    is_valid_url { resetSaver with initial_domain := "example.com".data }
      "http://example.com/a".data "example.com".data = true :=
  ⟨(c6_scope_filter_amended _ _ _).2.2.1 (by decide),
   (c6_scope_filter_amended _ _ _).2.2.2.2.2 (by decide) (by decide) (by decide)
     (by decide) (by decide)⟩

/-- One `apply_delay` section with positive interval and a positive
previous stamp: the new stamp equals the release instant, the interval
field is untouched, and the release is at least one interval after the
previous stamp. -/
theorem apply_delay_pos_step (s : Saver) (t : Int) (hd : 0 < s.delay_ms)
    (hl : 0 < s.last_request_time) :
    (apply_delay s t).1.last_request_time = (apply_delay s t).2 ∧
    (apply_delay s t).1.delay_ms = s.delay_ms ∧
    s.last_request_time + s.delay_ms ≤ (apply_delay s t).2 := by
  unfold apply_delay
  rw [if_neg (by omega)]
  split_ifs with h2 h3 <;> refine ⟨rfl, rfl, by omega⟩

/-- Every release instant produced from a state with a positive stamp
lies at least one interval after that stamp. -/
theorem delayRun_lowerBound :
    ∀ (ts : List Int) (s : Saver), 0 < s.delay_ms → 0 < s.last_request_time →
      ∀ r ∈ delayRun s ts, s.last_request_time + s.delay_ms ≤ r
  | [], _, _, _ => by intro r hr; simp [delayRun] at hr
  | t :: ts, s, hd, hl => by
    intro r hr
    obtain ⟨hstamp, hdms, hrel⟩ := apply_delay_pos_step s t hd hl
    simp only [delayRun, List.mem_cons] at hr
    rcases hr with h | h
    · omega
    · have hl' : 0 < (apply_delay s t).1.last_request_time := by omega
      have hd' : 0 < (apply_delay s t).1.delay_ms := by omega
      have := delayRun_lowerBound ts (apply_delay s t).1 hd' hl' r h
      omega

/-- Prepending an element below the whole list by at least `d` keeps a
list consecutively `d`-spaced. -/
theorem consecSpaced_cons (d a : Int) (l : List Int)
    (hspace : ConsecSpaced d l) (hbound : ∀ r ∈ l, a + d ≤ r) :
    ConsecSpaced d (a :: l) := by
  cases l with
  | nil => trivial
  | cons b l => exact ⟨hbound b (List.mem_cons_self b l), hspace⟩

/-- Spacing for runs starting from a state that has already stamped. -/
theorem delayRun_spaced_pos :
    ∀ (ts : List Int) (s : Saver), 0 < s.delay_ms → 0 < s.last_request_time →
      ConsecSpaced s.delay_ms (delayRun s ts)
  | [], _, _, _ => trivial
  | t :: ts, s, hd, hl => by
    obtain ⟨hstamp, hdms, hrel⟩ := apply_delay_pos_step s t hd hl
    have hl' : 0 < (apply_delay s t).1.last_request_time := by omega
    have hd' : 0 < (apply_delay s t).1.delay_ms := by omega
    have htail := delayRun_spaced_pos ts (apply_delay s t).1 hd' hl'
    rw [hdms] at htail
    show ConsecSpaced s.delay_ms ((apply_delay s t).2 :: delayRun (apply_delay s t).1 ts)
    refine consecSpaced_cons _ _ _ htail (fun r hr => ?_)
    have := delayRun_lowerBound ts (apply_delay s t).1 hd' hl' r hr
    omega

/-- C8: with a positive rate interval, the serialized rate limiter —
each critical section either stamps and proceeds (first request) or
sleeps out the remainder of the interval before re-stamping — releases
consecutive requests at instants at least one interval apart, across
all worker threads.  Entry clock values are positive (the model's stand-
in for wall-clock epoch milliseconds, whose zero is the unset
sentinel). -/
theorem c8_rate_limiter_spacing (s : Saver) (ts : List Int)
    (hd : 0 < s.delay_ms) (hl : 0 ≤ s.last_request_time)
    (hts : ∀ t ∈ ts, 0 < t) :
    ConsecSpaced s.delay_ms (delayRun s ts) := by
  rcases lt_or_eq_of_le hl with hpos | hzero
  · exact delayRun_spaced_pos ts s hd hpos
  · cases ts with
    | nil => trivial
    | cons t ts =>
      have ht : 0 < t := hts t (List.mem_cons_self t ts)
      have hstep : apply_delay s t = ({ s with last_request_time := t }, t) := by
        unfold apply_delay
        rw [if_neg (by omega), if_pos (by omega)]
      show ConsecSpaced s.delay_ms
        ((apply_delay s t).2 :: delayRun (apply_delay s t).1 ts)
      rw [hstep]
      have hd' : 0 < ({ s with last_request_time := t } : Saver).delay_ms := hd
      have hl' : 0 < ({ s with last_request_time := t } : Saver).last_request_time := ht
      refine consecSpaced_cons _ _ _ (delayRun_spaced_pos ts _ hd' hl')
        (fun r hr => ?_)
      have := delayRun_lowerBound ts _ hd' hl' r hr
      simpa using this

/-- Witness for C8: interval 100 ms, three serialized requests. -/
theorem c8_rate_limiter_witness :
    (0:Int) < ({ resetSaver with delay_ms := 100 } : Saver).delay_ms ∧
    (0:Int) ≤ ({ resetSaver with delay_ms := 100 } : Saver).last_request_time ∧
    ConsecSpaced 100 (delayRun { resetSaver with delay_ms := 100 } [1000, 1020, 1200]) :=
  ⟨by decide, by decide,
   c8_rate_limiter_spacing { resetSaver with delay_ms := 100 } [1000, 1020, 1200]
     (by decide) (by decide) (by decide)⟩

/-- Monotonicity of the dedup set: no claim section ever removes a URL
from `downloaded_resources`. -/
theorem applyClaimOp_mono (s : Saver) (op : ClaimOp) (u : Str)
    (h : u ∈ s.downloaded_resources) :
    u ∈ (applyClaimOp s op).1.downloaded_resources := by
  cases op with
  | resource v =>
    simp only [applyClaimOp]
    unfold lockResourceClaim
    split_ifs <;> simp [h]
  | link v d =>
    simp only [applyClaimOp]
    unfold lockLinkClaim
    split_ifs <;> simp [h]

/-- A claim section enqueues a URL only when it was unclaimed on entry,
and that URL is in the dedup set on exit. -/
theorem applyClaimOp_event (s : Saver) (op : ClaimOp) (u : Str)
    (h : u ∈ (applyClaimOp s op).2) :
    u ∉ s.downloaded_resources ∧ u ∈ (applyClaimOp s op).1.downloaded_resources := by
  cases op with
  | resource v =>
    simp only [applyClaimOp] at h ⊢
    unfold lockResourceClaim at h ⊢
    split_ifs at h ⊢ with hc
    · simp at h
    · simp only [List.mem_singleton] at h
      subst h
      exact ⟨hc, by simp⟩
  | link v d =>
    simp only [applyClaimOp] at h ⊢
    unfold lockLinkClaim at h ⊢
    split_ifs at h ⊢ with hc
    · simp only [List.mem_singleton] at h
      subst h
      exact ⟨hc.2, by simp⟩
    · simp at h

/-- A claim section enqueues at most one URL. -/
theorem applyClaimOp_event_len (s : Saver) (op : ClaimOp) :
    (applyClaimOp s op).2.length ≤ 1 := by
  cases op with
  | resource v =>
    simp only [applyClaimOp]
    unfold lockResourceClaim
    split_ifs <;> simp
  | link v d =>
    simp only [applyClaimOp]
    unfold lockLinkClaim
    split_ifs <;> simp

/-- From a state in which `u` is already claimed, no serialization of
claim sections ever enqueues `u` again. -/
theorem runClaims_no_event_of_claimed (ops : List ClaimOp) :
    ∀ (s : Saver) (u : Str), u ∈ s.downloaded_resources →
      List.count u (runClaims s ops).2 = 0 := by
  induction ops with
  | nil => intro s u _; simp [runClaims]
  | cons op ops ih =>
    intro s u h
    simp only [runClaims, List.count_append]
    have h1 : List.count u (applyClaimOp s op).2 = 0 := by
      rw [List.count_eq_zero]
      intro hmem
      exact (applyClaimOp_event s op u hmem).1 h
    rw [h1, ih _ u (applyClaimOp_mono s op u h)]

/-- C1: across any serialization of the lock-protected claim sections
(the only places a URL is put on `resource_queue` or `page_queue`),
every URL is enqueued at most once: the dedup-set membership test and
the insert-plus-enqueue are one atomic section under `self.lock`, so
two workers discovering the same URL concurrently yield one enqueue. -/
theorem c1_enqueue_at_most_once (s : Saver) (ops : List ClaimOp) (u : Str) :
    List.count u (runClaims s ops).2 ≤ 1 := by
  induction ops generalizing s with
  | nil => simp [runClaims]
  | cons op ops ih =>
    simp only [runClaims, List.count_append]
    by_cases hmem : u ∈ (applyClaimOp s op).2
    · have h2 := (applyClaimOp_event s op u hmem).2
      have hrest := runClaims_no_event_of_claimed ops (applyClaimOp s op).1 u h2
      have h1 : List.count u (applyClaimOp s op).2 ≤ 1 :=
        le_trans (List.count_le_length u (applyClaimOp s op).2)
          (applyClaimOp_event_len s op)
      omega
    · rw [List.count_eq_zero.mpr hmem]
      simpa using ih (applyClaimOp s op).1

/-- C3 (code bug): cancellation requested while two page tasks are
queued.  The single page worker, already past its `while` test, pops
one task, skips the fetch, marks it done, then exits at the next test;
the reached state has no successor (`cancelNext` is empty) and one
unfinished task, so `page_queue.join()` at line 450 can never unblock
and the completion signal of lines 93–96 is never emitted — the run
does not terminate, against the claim. -/
theorem c3_cancellation_deadlock :
    (⟨false, 2, 2, .inGet⟩ : CancelSys) ∈ cancelNext ⟨false, 2, 2, .atLoopTest⟩ ∧
    (⟨true, 2, 2, .inGet⟩ : CancelSys) ∈ cancelNext ⟨false, 2, 2, .inGet⟩ ∧
    (⟨true, 1, 2, .holding⟩ : CancelSys) ∈ cancelNext ⟨true, 2, 2, .inGet⟩ ∧
    (⟨true, 1, 1, .atLoopTest⟩ : CancelSys) ∈ cancelNext ⟨true, 1, 2, .holding⟩ ∧
    (⟨true, 1, 1, .exited⟩ : CancelSys) ∈ cancelNext ⟨true, 1, 1, .atLoopTest⟩ ∧
    (⟨true, 1, 1, .exited⟩ : CancelSys).unfinished ≠ 0 ∧
    cancelNext ⟨true, 1, 1, .exited⟩ = [] := by decide

/-- C2 counterexample: a resource reference that passes the scope
filter but whose URL was already claimed — here by the CSS pass of the
same extraction — is left untouched in the document instead of being
rewritten to the page-relative local path the claim requires. -/
theorem c2_rewrite_counterexample :
    (extract_resources
        { resetSaver with
            initial_domain := "example.com".data
            save_dir := "/save".data
            max_depth := 5
            visited_urls := ["http://example.com/".data]
            downloaded_resources := ["http://example.com/".data]
            total_files := 1 }
        [⟨"img".data, [("src".data, "http://example.com/img.png".data)]⟩]
        "url(http://example.com/img.png)".data
        "http://example.com/".data "example.com".data "all_pages".data 0).2 =
      [⟨"img".data, [("src".data, "http://example.com/img.png".data)]⟩] ∧
    (extract_resources
        { resetSaver with
            initial_domain := "example.com".data
            save_dir := "/save".data
            max_depth := 5
            visited_urls := ["http://example.com/".data]
            downloaded_resources := ["http://example.com/".data]
            total_files := 1 }
        [⟨"img".data, [("src".data, "http://example.com/img.png".data)]⟩]
        "url(http://example.com/img.png)".data
        "http://example.com/".data "example.com".data "all_pages".data 0).1.resource_queue =
      ["http://example.com/img.png".data] ∧
    is_valid_url
      { resetSaver with
          initial_domain := "example.com".data
          save_dir := "/save".data }
      "http://example.com/img.png".data "example.com".data = true ∧
    ospRelpath (get_local_path "http://example.com/img.png".data "/save".data)
        (ospDirname (get_local_path "http://example.com/".data "/save".data)) =
      "img.png".data ∧
    "http://example.com/img.png".data ≠ "img.png".data := by decide

/-- C2 (amended): a markup resource reference is rewritten to the local
path relative to the source page's directory exactly when its absolute
URL passes the scope filter and is newly claimed by this reference's
own critical section; a reference whose URL is already in the dedup set
(claimed by an earlier page, by the CSS pass, or by a preceding
reference) is left unchanged.  (CSS `url()` references are never
rewritten at all: the CSS pass, `cssStep`, does not touch the
document.) -/
theorem c2_rewrite_only_when_newly_claimed (pageUrl currentDomain : Str)
    (ta : Str × Str) (s : Saver) (e : Element)
    (htag : e.tag = ta.1) (hattr : (getAttr e ta.2).isSome = true) :
    (is_valid_url s (get_absolute_url pageUrl ((getAttr e ta.2).getD []))
        currentDomain = true →
      get_absolute_url pageUrl ((getAttr e ta.2).getD []) ∉ s.downloaded_resources →
      (tagStep pageUrl currentDomain ta s e).2 =
        setAttr e ta.2 (ospRelpath
          (get_local_path (get_absolute_url pageUrl ((getAttr e ta.2).getD []))
            s.save_dir)
          (ospDirname (get_local_path pageUrl s.save_dir)))) ∧
    (get_absolute_url pageUrl ((getAttr e ta.2).getD []) ∈ s.downloaded_resources →
      (tagStep pageUrl currentDomain ta s e).2 = e) := by
  constructor
  · intro hvalid hunclaimed
    unfold tagStep
    dsimp only
    rw [if_pos ⟨htag, hattr⟩, if_pos ⟨hvalid, hunclaimed⟩]
    unfold lockTagClaim lockResourceClaim
    dsimp only
    rw [if_neg hunclaimed]
    simp
  · intro hclaimed
    unfold tagStep
    dsimp only
    rw [if_pos ⟨htag, hattr⟩, if_neg (fun hcon => hcon.2 hclaimed)]

/-- Witness for C2 (amended): the same `img` element is rewritten when
its URL is fresh and left unchanged when its URL is already claimed. -/
theorem c2_rewrite_witness :
    (tagStep "http://example.com/".data "example.com".data
        ("img".data, "src".data)
        { resetSaver with
            initial_domain := "example.com".data
            save_dir := "/save".data }
        ⟨"img".data, [("src".data, "img.png".data)]⟩).2 =
      setAttr ⟨"img".data, [("src".data, "img.png".data)]⟩ "src".data
        (ospRelpath
          (get_local_path
            (get_absolute_url "http://example.com/".data "img.png".data)
            "/save".data)
          (ospDirname (get_local_path "http://example.com/".data "/save".data))) ∧
    (tagStep "http://example.com/".data "example.com".data
        ("img".data, "src".data)
        { resetSaver with
            initial_domain := "example.com".data
            save_dir := "/save".data
            downloaded_resources := ["http://example.com/img.png".data] }
        ⟨"img".data, [("src".data, "img.png".data)]⟩).2 =
      ⟨"img".data, [("src".data, "img.png".data)]⟩ :=
  ⟨(c2_rewrite_only_when_newly_claimed _ _ _ _ _ (by decide) (by decide)).1
      (by decide) (by decide),
   (c2_rewrite_only_when_newly_claimed _ _ _ _ _ (by decide) (by decide)).2
      (by decide)⟩

/-- A predicate on the threaded state is preserved through `mapAccumL`
when every step preserves it. -/
theorem mapAccumL_fst_preserve {σ α : Type} (f : σ → α → σ × α) (P : σ → Prop)
    (hstep : ∀ s a, P s → P (f s a).1) (l : List α) :
    ∀ s : σ, P s → P (mapAccumL f s l).1 := by
  induction l with
  | nil => intro s h; exact h
  | cons x xs ih =>
    intro s h
    show P (mapAccumL f (f s x).1 xs).1
    exact ih _ (hstep s x h)

/-- A predicate on the accumulator is preserved through `List.foldl`
when every step preserves it. -/
theorem foldl_preserve {σ α : Type} (f : σ → α → σ) (P : σ → Prop)
    (hstep : ∀ s a, P s → P (f s a)) (l : List α) :
    ∀ s : σ, P s → P (l.foldl f s) := by
  induction l with
  | nil => intro s h; exact h
  | cons x xs ih => intro s h; exact ih _ (hstep s x h)

/-- The CSS-pass step never touches the page queue or `max_depth`. -/
theorem cssStep_pq (pu cd : Str) (s : Saver) (r : Str) :
    (cssStep pu cd s r).page_queue = s.page_queue ∧
    (cssStep pu cd s r).max_depth = s.max_depth := by
  unfold cssStep lockResourceClaim
  dsimp only
  split_ifs <;> exact ⟨rfl, rfl⟩

/-- The tag-pass step never touches the page queue or `max_depth`. -/
theorem tagStep_pq (pu cd : Str) (ta : Str × Str) (s : Saver) (e : Element) :
    (tagStep pu cd ta s e).1.page_queue = s.page_queue ∧
    (tagStep pu cd ta s e).1.max_depth = s.max_depth := by
  unfold tagStep lockTagClaim lockResourceClaim
  dsimp only
  split_ifs <;> exact ⟨rfl, rfl⟩

/-- The anchor-pass locked claim either leaves the page queue alone or
appends exactly one task at `depth + 1`; `max_depth` is untouched. -/
theorem lockLinkClaim_pq (s : Saver) (u : Str) (d : Nat) :
    ((lockLinkClaim s u d).1.page_queue = s.page_queue ∨
      (lockLinkClaim s u d).1.page_queue =
        s.page_queue ++ [(u, (urlparse u).netloc, d + 1)]) ∧
    (lockLinkClaim s u d).1.max_depth = s.max_depth := by
  unfold lockLinkClaim
  dsimp only
  split_ifs
  · exact ⟨Or.inr rfl, rfl⟩
  · exact ⟨Or.inl rfl, rfl⟩

/-- Every task the anchor-pass step leaves on the page queue was
already there or carries depth `d + 1`; `max_depth` is untouched. -/
theorem linkStep_pq (pu cd : Str) (d : Nat) (s : Saver) (e : Element) :
    (∀ t ∈ (linkStep pu cd d s e).1.page_queue,
        t ∈ s.page_queue ∨ t.2.2 = d + 1) ∧
    (linkStep pu cd d s e).1.max_depth = s.max_depth := by
  have hlock := lockLinkClaim_pq s (get_absolute_url pu ((getAttr e "href".data).getD [])) d
  unfold linkStep
  dsimp only
  split_ifs with h1 h2 h3
  · exact ⟨fun t ht => Or.inl ht, rfl⟩
  · refine ⟨fun t ht => ?_, hlock.2⟩
    rcases hlock.1 with hsame | happ
    · rw [hsame] at ht; exact Or.inl ht
    · rw [happ] at ht
      rcases List.mem_append.mp ht with hin | hnew
      · exact Or.inl hin
      · right
        rw [List.mem_singleton] at hnew
        rw [hnew]
  · exact ⟨fun t ht => Or.inl ht, rfl⟩
  · exact ⟨fun t ht => Or.inl ht, rfl⟩

/-- In `depth_limited` mode, `extract_resources` enqueues page tasks
only at depth `d + 1` and only when the anchor-pass guard `d <
max_depth` held; `max_depth` is untouched. -/
theorem extract_resources_depthLimited (s : Saver) (soup : List Element)
    (html : Str) (pu cd : Str) (d : Nat) :
    (∀ t ∈ (extract_resources s soup html pu cd "depth_limited".data d).1.page_queue,
        t ∈ s.page_queue ∨ (t.2.2 = d + 1 ∧ d < s.max_depth)) ∧
    (extract_resources s soup html pu cd "depth_limited".data d).1.max_depth =
      s.max_depth := by
  unfold extract_resources
  dsimp only
  set s1 := (cssUrls html).foldl (cssStep pu cd) s with hs1
  have hP1 : s1.page_queue = s.page_queue ∧ s1.max_depth = s.max_depth := by
    rw [hs1]
    refine foldl_preserve _ (fun st => st.page_queue = s.page_queue ∧ st.max_depth = s.max_depth)
      (fun st a hst => ?_) _ s ⟨rfl, rfl⟩
    obtain ⟨hq, hm⟩ := cssStep_pq pu cd st a
    exact ⟨hq.trans hst.1, hm.trans hst.2⟩
  set r2 := resourceTags.foldl
    (fun (acc : Saver × List Element) ta =>
      mapAccumL (tagStep pu cd ta) acc.1 acc.2) (s1, soup) with hr2
  have hP2 : r2.1.page_queue = s.page_queue ∧ r2.1.max_depth = s.max_depth := by
    rw [hr2]
    refine foldl_preserve _
      (fun (acc : Saver × List Element) =>
        acc.1.page_queue = s.page_queue ∧ acc.1.max_depth = s.max_depth)
      (fun acc ta hacc => ?_) _ (s1, soup) hP1
    refine mapAccumL_fst_preserve _
      (fun st => st.page_queue = s.page_queue ∧ st.max_depth = s.max_depth)
      (fun st e hst => ?_) _ acc.1 hacc
    obtain ⟨hq, hm⟩ := tagStep_pq pu cd ta st e
    exact ⟨hq.trans hst.1, hm.trans hst.2⟩
  by_cases hguard : "depth_limited".data ≠ "current_page".data ∧
      ("depth_limited".data = "all_pages".data ∨ d < r2.1.max_depth)
  · rw [if_pos hguard]
    have hd : d < s.max_depth := by
      rcases hguard.2 with habs | hlt
      · exact absurd habs (by decide)
      · rw [hP2.2] at hlt; exact hlt
    have := mapAccumL_fst_preserve (linkStep pu cd d)
      (fun st => (∀ t ∈ st.page_queue, t ∈ s.page_queue ∨ t.2.2 = d + 1) ∧
        st.max_depth = s.max_depth)
      (fun st e hst => ?_) r2.2 r2.1
      ⟨fun t ht => Or.inl (hP2.1 ▸ ht), hP2.2⟩
    · refine ⟨fun t ht => ?_, this.2⟩
      rcases this.1 t ht with hin | hdep
      · exact Or.inl hin
      · exact Or.inr ⟨hdep, hd⟩
    · obtain ⟨hmem, hm⟩ := linkStep_pq pu cd d st e
      refine ⟨fun t ht => ?_, hm.trans hst.2⟩
      rcases hmem t ht with hin | hdep
      · exact hst.1 t hin
      · exact Or.inr hdep
  · rw [if_neg hguard]
    exact ⟨fun t ht => Or.inl (hP2.1 ▸ ht), hP2.2⟩

set_option maxHeartbeats 1600000 in
/-- In `depth_limited` mode, one page download enqueues page tasks only
at `d + 1` under the guard `d < max_depth`; `max_depth` is untouched. -/
theorem download_page_depthLimited (fetch : Str → Option Fetched) (s : Saver)
    (u cd : Str) (d : Nat) :
    (∀ t ∈ (download_page fetch s u cd "depth_limited".data d).1.page_queue,
        t ∈ s.page_queue ∨ (t.2.2 = d + 1 ∧ d < s.max_depth)) ∧
    (download_page fetch s u cd "depth_limited".data d).1.max_depth =
      s.max_depth := by
  cases hf : fetch u with
  | none =>
    unfold download_page
    rw [hf]
    by_cases hc : s.is_cancelled = true
    · rw [if_pos hc]
      exact ⟨fun t ht => Or.inl ht, rfl⟩
    · rw [if_neg hc]
      exact ⟨fun t ht => Or.inl ht, rfl⟩
  | some r =>
    unfold download_page
    rw [hf]
    by_cases hc : s.is_cancelled = true
    · rw [if_pos hc]
      exact ⟨fun t ht => Or.inl ht, rfl⟩
    · rw [if_neg hc]
      dsimp only
      by_cases hct : containsStr (lowerStr r.contentType) "text/html".data = true
      · rw [if_pos hct,
          if_neg (by decide : ¬ "depth_limited".data = "current_page".data)]
        exact extract_resources_depthLimited s r.soup r.body u cd d
      · rw [if_neg hct]
        exact ⟨fun t ht => Or.inl ht, rfl⟩

/-- C7: in a depth-limited run with maximum depth `m`, no `PageTask`
of depth greater than `m` is ever enqueued — hyperlinks are followed
from a page at depth `d` only when `d < m` and the new task carries
depth `d + 1` — so the page-queue invariant `depth ≤ max_depth` is
preserved by the page worker from any state satisfying it (in
particular from the seeded state, whose single task has depth 0). -/
theorem c7_depth_limited_never_exceeds (fetch : Str → Option Fetched)
    (fuel : Nat) :
    ∀ (s : Saver) (acc : List Str),
      (∀ t ∈ s.page_queue, t.2.2 ≤ s.max_depth) →
      (∀ t ∈ (pageLoop fetch "depth_limited".data fuel s acc).1.page_queue,
          t.2.2 ≤ s.max_depth) ∧
      (pageLoop fetch "depth_limited".data fuel s acc).1.max_depth =
        s.max_depth := by
  induction fuel with
  | zero => intro s acc hinv; exact ⟨hinv, rfl⟩
  | succ n ih =>
    intro s acc hinv
    unfold pageLoop
    split_ifs with hc
    · exact ⟨hinv, rfl⟩
    · cases hq : s.page_queue with
      | nil => exact ⟨fun t ht => hinv t (hq ▸ ht), rfl⟩
      | cons task rest =>
        obtain ⟨u, dom, d⟩ := task
        dsimp only
        obtain ⟨hmem, hm⟩ := download_page_depthLimited fetch
          { s with page_queue := rest } u dom d
        have hinv' : ∀ t ∈ (download_page fetch { s with page_queue := rest }
            u dom "depth_limited".data d).1.page_queue,
            t.2.2 ≤ (download_page fetch { s with page_queue := rest }
              u dom "depth_limited".data d).1.max_depth := by
          intro t ht
          rw [hm]
          show t.2.2 ≤ s.max_depth
          rcases hmem t ht with hin | ⟨hdep, hlt⟩
          · exact hinv t (by rw [hq]; exact List.mem_cons_of_mem _ hin)
          · have hlt' : d < s.max_depth := hlt
            omega
        obtain ⟨hfin, hfm⟩ := ih _ (acc ++ (download_page fetch
          { s with page_queue := rest } u dom "depth_limited".data d).2) hinv'
        refine ⟨fun t ht => ?_, by rw [hfm, hm]⟩
        have := hfin t ht
        rw [hm] at this
        exact this

/-- Witness for C7: a seeded depth-limited run at `max_depth = 1` whose
seed page links onward. -/
theorem c7_depth_limited_witness :
    (∀ t ∈ ({ resetSaver with
        initial_domain := "example.com".data
        save_dir := "/save".data
        max_depth := 1
        total_files := 1
        page_queue := [("http://example.com/".data, "example.com".data, 0)]
        visited_urls := ["http://example.com/".data]
        downloaded_resources := ["http://example.com/".data] } : Saver).page_queue,
      t.2.2 ≤ 1) ∧
    (∀ t ∈ (pageLoop
        (fun u =>
          if u = "http://example.com/".data then
            some ⟨"text/html".data, [],
              [⟨"a".data, [("href".data, "/a".data)]⟩]⟩
          else
            some ⟨"text/html".data, [],
              [⟨"a".data, [("href".data, "/b".data)]⟩]⟩)
        "depth_limited".data 5
        { resetSaver with
          initial_domain := "example.com".data
          save_dir := "/save".data
          max_depth := 1
          total_files := 1
          page_queue := [("http://example.com/".data, "example.com".data, 0)]
          visited_urls := ["http://example.com/".data]
          downloaded_resources := ["http://example.com/".data] } []).1.page_queue,
      t.2.2 ≤ 1) :=
  ⟨by decide,
   (c7_depth_limited_never_exceeds _ 5 _ [] (by decide)).1⟩

/-- A page worker facing an empty queue returns immediately (both
queues empty in the modelled runs, lines 375–378). -/
theorem pageLoop_empty (fetch : Str → Option Fetched) (mode : Str) (fuel : Nat)
    (s : Saver) (acc : List Str) (h : s.page_queue = []) :
    pageLoop fetch mode fuel s acc = (s, acc) := by
  cases fuel with
  | zero => rfl
  | succ n =>
    unfold pageLoop
    split_ifs
    · rfl
    · rw [h]

/-- A resource worker facing an empty queue returns immediately. -/
theorem resourceLoop_empty (fetch : Str → Option Fetched) (fuel : Nat)
    (s : Saver) (acc : List Str) (h : s.resource_queue = []) :
    resourceLoop fetch fuel s acc = (s, acc) := by
  cases fuel with
  | zero => rfl
  | succ n =>
    unfold resourceLoop
    split_ifs
    · rfl
    · rw [h]

/-- One page-worker iteration: pop the head task and process it. -/
theorem pageLoop_succ (fetch : Str → Option Fetched) (mode : Str) (n : Nat)
    (s : Saver) (acc : List Str) (u dom : Str) (d : Nat)
    (rest : List (Str × Str × Nat))
    (hc : s.is_cancelled = false) (hq : s.page_queue = (u, dom, d) :: rest) :
    pageLoop fetch mode (n + 1) s acc =
      pageLoop fetch mode n
        (download_page fetch { s with page_queue := rest } u dom mode d).1
        (acc ++ (download_page fetch { s with page_queue := rest } u dom mode d).2) := by
  conv_lhs => rw [pageLoop]
  rw [if_neg (show ¬ s.is_cancelled = true by rw [hc]; simp), hq]

/-- `download_page` in `current_page` mode with a successful fetch
writes exactly the one file for the fetched URL and touches no queue,
dedup set or counter other than the completed-files counter — no
resource extraction happens, whatever the content type and however
many references the page contains. -/
theorem download_page_current (fetch : Str → Option Fetched) (s : Saver)
    (u cd : Str) (d : Nat) (r : Fetched)
    (hc : s.is_cancelled = false) (hf : fetch u = some r) :
    download_page fetch s u cd "current_page".data d =
      ({ s with downloaded_files := s.downloaded_files + 1 },
       [get_local_path u s.save_dir]) := by
  unfold download_page
  rw [hc, if_neg (by simp), hf]
  dsimp only
  by_cases hct : containsStr (lowerStr r.contentType) "text/html".data = true
  · rw [if_pos hct, if_pos rfl]
  · rw [if_neg hct]

/-- `download_page` on a failing fetch changes nothing and writes
nothing: the exception is caught and logged at line 548. -/
theorem download_page_fetchFail (fetch : Str → Option Fetched) (s : Saver)
    (u cd mode : Str) (d : Nat)
    (hc : s.is_cancelled = false) (hf : fetch u = none) :
    download_page fetch s u cd mode d = (s, []) := by
  unfold download_page
  rw [hc, if_neg (by simp), hf]

/-- C9: a run in `current_page` mode with a reachable seed downloads
and saves exactly one file — the seed page at its mapped local path —
regardless of how many links or resource references the fetched page
contains: no extraction runs, the total-file estimate stays 1, no task
is ever enqueued beyond the seed, and the run finishes successfully. -/
theorem c9_current_page_single_file (fetch : Str → Option Fetched)
    (cwd url : Str) (maxDepth : Nat) (delayMs : Int) (fuel : Nat)
    (r : Fetched) (h : fetch url = some r) :
    (save_website fetch cwd url "current_page".data maxDepth delayMs
        (fuel + 1)).saved =
      [get_local_path url
        (ospJoin (ospJoin cwd "saved_websites".data) (urlparse url).netloc)] ∧
    (save_website fetch cwd url "current_page".data maxDepth delayMs
        (fuel + 1)).saver.total_files = 1 ∧
    (save_website fetch cwd url "current_page".data maxDepth delayMs
        (fuel + 1)).saver.page_queue = [] ∧
    (save_website fetch cwd url "current_page".data maxDepth delayMs
        (fuel + 1)).saver.resource_queue = [] ∧
    (save_website fetch cwd url "current_page".data maxDepth delayMs
        (fuel + 1)).finished = (true, "下载完成!".data) := by
  unfold save_website
  dsimp only
  rw [pageLoop_succ fetch _ fuel _ [] url ((urlparse url).netloc) 0 [] rfl rfl]
  rw [download_page_current fetch _ url ((urlparse url).netloc) 0 r rfl h]
  rw [pageLoop_empty fetch _ fuel _ _ rfl]
  rw [resourceLoop_empty fetch (fuel + 1) _ _ rfl]
  exact ⟨rfl, rfl, rfl, rfl, rfl⟩

/-- C4 counterexample: with an unreachable start URL (every fetch
raises), the run saves nothing but still finishes with the success
signal `下载完成!` — not the claimed immediate failure. -/
theorem c4_run_succeeds_on_unreachable_seed :
    (save_website (fun _ => none) "/cwd".data "http://example.com/".data
        "all_pages".data 5 0 10).saved = [] ∧
    (save_website (fun _ => none) "/cwd".data "http://example.com/".data
        "all_pages".data 5 0 10).finished = (true, "下载完成!".data) := by
  decide

/-- C4 (amended): a run whose start URL is invalid or unreachable
produces no saved files, but does not fail: the seed fetch error is
caught and logged like every other error (network, encoding,
filesystem — all non-fatal) and the run completes with the success
completion signal. -/
theorem c4_seed_failure_nonfatal (fetch : Str → Option Fetched)
    (cwd url downloadMode : Str) (maxDepth : Nat) (delayMs : Int) (fuel : Nat)
    (h : fetch url = none) :
    (save_website fetch cwd url downloadMode maxDepth delayMs fuel).saved = [] ∧
    (save_website fetch cwd url downloadMode maxDepth delayMs fuel).finished =
      (true, "下载完成!".data) := by
  unfold save_website
  dsimp only
  cases fuel with
  | zero => exact ⟨rfl, rfl⟩
  | succ n =>
    rw [pageLoop_succ fetch _ n _ [] url ((urlparse url).netloc) 0 [] rfl rfl]
    rw [download_page_fetchFail fetch _ url ((urlparse url).netloc) downloadMode 0 rfl h]
    rw [pageLoop_empty fetch _ n _ _ rfl]
    rw [resourceLoop_empty fetch (n + 1) _ _ rfl]
    exact ⟨rfl, rfl⟩

/-- Witness for C4 (amended). -/
theorem c4_seed_failure_witness :
    ((fun _ : Str => (none : Option Fetched)) "http://example.com/".data = none) ∧
    (save_website (fun _ => none) "/cwd".data "http://example.com/".data
        "depth_limited".data 3 0 7).saved = [] ∧
    (save_website (fun _ => none) "/cwd".data "http://example.com/".data
        "depth_limited".data 3 0 7).finished = (true, "下载完成!".data) :=
  ⟨rfl, c4_seed_failure_nonfatal (fun _ => none) "/cwd".data
    "http://example.com/".data "depth_limited".data 3 0 7 rfl⟩

/-- Witness for C9: the seed page contains an image reference, a CSS
reference and a link, yet the `current_page` run saves one file. -/
theorem c9_current_page_witness :
    ((fun _ : Str => some (⟨"text/html".data, "url(x.css)".data,
        [⟨"img".data, [("src".data, "img.png".data)]⟩,
         ⟨"a".data, [("href".data, "/a".data)]⟩]⟩ : Fetched))
      "http://example.com/".data =
        some ⟨"text/html".data, "url(x.css)".data,
          [⟨"img".data, [("src".data, "img.png".data)]⟩,
           ⟨"a".data, [("href".data, "/a".data)]⟩]⟩) ∧
    (save_website
        (fun _ => some ⟨"text/html".data, "url(x.css)".data,
          [⟨"img".data, [("src".data, "img.png".data)]⟩,
           ⟨"a".data, [("href".data, "/a".data)]⟩]⟩)
        "/cwd".data "http://example.com/".data
        "current_page".data 1 0 10).saved =
      [get_local_path "http://example.com/".data
        (ospJoin (ospJoin "/cwd".data "saved_websites".data)
          (urlparse "http://example.com/".data).netloc)] ∧
    (save_website
        (fun _ => some ⟨"text/html".data, "url(x.css)".data,
          [⟨"img".data, [("src".data, "img.png".data)]⟩,
           ⟨"a".data, [("href".data, "/a".data)]⟩]⟩)
        "/cwd".data "http://example.com/".data
        "current_page".data 1 0 10).saver.total_files = 1 :=
  ⟨rfl,
   (c9_current_page_single_file _ "/cwd".data "http://example.com/".data 1 0 9
      ⟨"text/html".data, "url(x.css)".data,
        [⟨"img".data, [("src".data, "img.png".data)]⟩,
         ⟨"a".data, [("href".data, "/a".data)]⟩]⟩ rfl).1,
   (c9_current_page_single_file _ "/cwd".data "http://example.com/".data 1 0 9
      ⟨"text/html".data, "url(x.css)".data,
        [⟨"img".data, [("src".data, "img.png".data)]⟩,
         ⟨"a".data, [("href".data, "/a".data)]⟩]⟩ rfl).2.1⟩

end WebSnapPro
